import Mathlib

/-!
Shallow embedding of the chat subsystem of the TailoringCompany backend
(`routers/chat.py`, `mongo/mongo_service.py`).  Timestamps are modelled as
natural numbers (only their ordering matters to the code under study);
MongoDB collections are modelled as association lists with first-match
semantics, matching `find_one` / `find_one_and_update`; the external
datetime parsing performed on the `before` query parameter is abstracted
as a `String → Option Nat` argument (`none` models every parse attempt
raising `ValueError`, which the code catches).
-/

set_option autoImplicit false

namespace TailoringChat

/-- One attachment entry as built by `add_message_to_thread` (chat.py:334-340). -/
structure FileAttachment where
  file_id : String
  filename : String
  content_type : String
  size : Nat
  storage_id : String
deriving DecidableEq, Repr

/-- A chat message as persisted inside a thread document (chat.py:343-351). -/
structure Message where
  sender_id : String
  sender_name : String
  sender_role : String
  content : String
  files : List FileAttachment
  timestamp : Nat
  is_read : Bool
deriving DecidableEq, Repr

/-- A chat thread document (`chat_threads` collection, chat.py:252-260). -/
structure ChatThread where
  id : String
  user_id : String
  user_email : String
  user_name : String
  admin_id : Option String
  messages : List Message
  created_at : Nat
  updated_at : Nat
deriving DecidableEq, Repr

/-- A user document (`users` collection, chat.py:61-67). -/
structure User where
  id : String
  firebase_uid : String
  email : String
  role : String
  name : String
  created_at : Nat
deriving DecidableEq, Repr

/-- A chat file metadata document (`chat_files` collection). -/
structure ChatFile where
  id : String
  storage_id : String
  filename : String
  content_type : String
  size : Nat
deriving DecidableEq, Repr

/-- The persistent state: the three MongoDB collections the chat router touches. -/
structure DB where
  users : List User
  chat_threads : List ChatThread
  chat_files : List ChatFile
deriving DecidableEq, Repr

/-- `fastapi.HTTPException(status_code, detail)`. -/
structure HTTPException where
  status_code : Nat
  detail : String
deriving DecidableEq, Repr

/-- Python truthiness of an optional string (`if before:`): `None` and `""` are falsy. -/
def pyTruthy : Option String → Bool
  | none => false
  | some s => s != ""

/-- First-match in-place update, the model of `find_one_and_update` on a
query that the collection's documents satisfy at most once each. -/
def updateFirst {α : Type} (p : α → Bool) (f : α → α) : List α → List α
  | [] => []
  | x :: xs => if p x then f x :: xs else x :: updateFirst p f xs

/-- chat.py:190-203: parse `before` (three tolerated formats, abstracted into
`parse_timestamp`; a `ValueError`/`TypeError` is caught and logged, leaving the
message list untouched) and keep the messages strictly before the cutoff. -/
def applyBeforeFilter (parse_timestamp : String → Option Nat) (before : Option String)
    (messages : List Message) : List Message :=
  match before with
  | none => messages
  | some s =>
    if s != "" then
      match parse_timestamp s with
      | some before_dt => messages.filter (fun msg => msg.timestamp < before_dt)
      | none => messages
    else messages

/-- chat.py:205: `messages.sort(key=lambda x: x.get("timestamp", datetime.min))`;
Python's sort is stable, so a stable insertion sort on the timestamp key is an
exact model. -/
def sortMessages (messages : List Message) : List Message :=
  List.insertionSort (fun a b => a.timestamp ≤ b.timestamp) messages

/-- chat.py:189-208: the pagination block guarded by `if limit or before`. -/
def pageSelect (limit : Int) (before : Option String)
    (parse_timestamp : String → Option Nat) (messages : List Message) : List Message :=
  if limit ≠ 0 ∨ pyTruthy before = true then
    let ms := applyBeforeFilter parse_timestamp before messages
    let ms := sortMessages ms
    if 0 < limit ∧ limit < (ms.length : Int) then ms.drop (ms.length - limit.toNat) else ms
  else messages

/-- chat.py:212-216 (in-memory) and 222-223 (the `$set` with `array_filters`):
flip `is_read` on every message that is unread and not sent by `user_id`. -/
def markAllRead (user_id : String) (messages : List Message) : List Message :=
  messages.map (fun message =>
    if message.is_read = false ∧ message.sender_id ≠ user_id then
      { message with is_read := true }
    else message)

/-- chat.py:211-215: `needs_update` is set iff some page message is unread and
from another sender. -/
def needsUpdate (user_id : String) (messages : List Message) : Bool :=
  messages.any (fun message => !message.is_read && message.sender_id != user_id)

/-- GET `/chat/thread/{thread_id}` (chat.py:165-229).  Returns the thread view
and the persistent state after the read-marking side effect. -/
def get_chat_thread (db : DB) (thread_id : String) (limit : Int) (before : Option String)
    (parse_timestamp : String → Option Nat) (current_user : User) :
    Except HTTPException (ChatThread × DB) :=
  let user_id := current_user.id
  let role := current_user.role
  match db.chat_threads.find? (fun t => t.id == thread_id) with
  | none => .error ⟨404, "Chat thread not found"⟩
  | some thread =>
    if role ≠ "admin" ∧ thread.user_id ≠ user_id then
      .error ⟨403, "Not authorized to access this chat thread"⟩
    else
      let messages := pageSelect limit before parse_timestamp thread.messages
      let updated_messages := markAllRead user_id messages
      let marked :=
        updateFirst (fun t => t.id == thread_id)
          (fun t => { t with messages := markAllRead user_id t.messages })
          db.chat_threads
      let db' :=
        if needsUpdate user_id messages = true then { db with chat_threads := marked }
        else db
      .ok ({ thread with messages := updated_messages }, db')

/-- The claims of a successfully verified token (Firebase or DB fallback),
chat.py:36-43; verification itself is external, so the embedding starts from
the decoded claims. -/
structure DecodedToken where
  uid : String
  email : Option String
  name : Option String
  role : Option String
deriving DecidableEq, Repr

/-- Python `str.title()` restricted to ASCII: upper-case every letter that
follows a non-letter, lower-case the other letters. -/
def strTitle (s : String) : String :=
  (s.data.foldl
    (fun acc c =>
      let out := acc.1
      let prevAlpha := acc.2
      if c.isAlpha then
        (out.push (if prevAlpha then c.toLower else c.toUpper), true)
      else (out.push c, false))
    (("" : String), false)).1

/-- `get_current_user` (chat.py:30-94) after token verification succeeded with
claims `decoded_token`: find-or-create the user, syncing the stored role with
the credential's role claim.  `new_id` stands for the ObjectId Mongo would
assign on insert; `now` for `datetime.utcnow()`. -/
def get_current_user (db : DB) (decoded_token : DecodedToken) (now : Nat)
    (new_id : String) : User × DB :=
  match db.users.find? (fun u => u.firebase_uid == decoded_token.uid) with
  | none =>
    let email := decoded_token.email
    let name :=
      if pyTruthy email = true ∧ pyTruthy decoded_token.name = false then
        some (strTitle (((email.getD "").splitOn "@").headD ""))
      else decoded_token.name
    let user : User :=
      { id := new_id
        firebase_uid := decoded_token.uid
        email := if pyTruthy email = true then email.getD "" else "unknown@example.com"
        role := decoded_token.role.getD "user"
        name :=
          if pyTruthy name = true then name.getD ""
          else if pyTruthy email = true then email.getD "" else "Anonymous User"
        created_at := now }
    (user, { db with users := db.users ++ [user] })
  | some user =>
    let firebase_role := decoded_token.role.getD "user"
    let current_role := user.role
    if current_role ≠ firebase_role then
      let user' := { user with role := firebase_role }
      let users' :=
        updateFirst (fun u => u.firebase_uid == decoded_token.uid)
          (fun u => { u with role := firebase_role }) db.users
      (user', { db with users := users' })
    else (user, db)

/-- In-memory WebSocket registry (chat.py:96-139); a live channel handle is
modelled as a bare number. -/
structure ConnectionManager where
  active_connections : List (String × Nat)
  admin_connections : List (String × Nat)
deriving DecidableEq, Repr

/-- Python dict assignment `d[k] = v`: replace the binding if the key is
present, append it otherwise. -/
def dictSet (d : List (String × Nat)) (k : String) (v : Nat) : List (String × Nat) :=
  match d with
  | [] => [(k, v)]
  | p :: rest => if p.1 == k then (k, v) :: rest else p :: dictSet rest k v

/-- Python dict lookup `d.get(k)`. -/
def dictGet (d : List (String × Nat)) (k : String) : Option Nat :=
  (d.find? (fun p => p.1 == k)).map (fun p => p.2)

/-- `ConnectionManager.connect` (chat.py:101-108): store the channel under
`user_id` in the primary map, and also in the admin map when `is_admin`. -/
def ConnectionManager.connect (manager : ConnectionManager) (websocket : Nat)
    (user_id : String) (is_admin : Bool) : ConnectionManager :=
  let active := dictSet manager.active_connections user_id websocket
  let admin :=
    if is_admin then dictSet manager.admin_connections user_id websocket
    else manager.admin_connections
  { active_connections := active, admin_connections := admin }

/-- Whether `send_personal_message` (chat.py:119-125) would deliver: true iff
`user_id` has a registered channel. -/
def ConnectionManager.deliverable (manager : ConnectionManager) (user_id : String) : Bool :=
  manager.active_connections.any (fun p => p.1 == user_id)

/-- The notification payload `{"type": "new_message", "thread_id": ..., "message": ...}`
(chat.py:366-370). -/
structure Envelope where
  type : String
  thread_id : String
  message : Message
deriving DecidableEq, Repr

/-- One invocation of the connection manager during message delivery. -/
inductive NotifyAction where
  | send_personal_message (payload : Envelope) (user_id : String)
  | broadcast_to_admins (payload : Envelope)
deriving DecidableEq, Repr

/-- The payload carried by a delivery invocation. -/
def NotifyAction.payload : NotifyAction → Envelope
  | .send_personal_message p _ => p
  | .broadcast_to_admins p => p

/-- A client-supplied file reference inside a message body: the optional
`"_id"` and `"storage_id"` keys (chat.py:309-331). -/
structure FileRef where
  id : Option String
  storage_id : Option String
deriving DecidableEq, Repr

/-- chat.py:310-331: resolve one client file reference against the
`chat_files` collection, by `_id` first and by `storage_id` as a fallback;
every lookup failure (including an unparsable ObjectId) is caught and yields
no metadata. -/
def resolveFileRef (chat_files : List ChatFile) (file_ref : FileRef) : Option ChatFile :=
  let byId :=
    match file_ref.id with
    | some fid => chat_files.find? (fun f : ChatFile => f.id == fid)
    | none => none
  match byId with
  | some file_metadata => some file_metadata
  | none =>
    match file_ref.storage_id with
    | some sid => (chat_files.filter (fun f : ChatFile => f.storage_id == sid)).head?
    | none => none

/-- chat.py:333-340: the attachment entry built from resolved metadata. -/
def toAttachment (file_metadata : ChatFile) : FileAttachment :=
  { file_id := file_metadata.id
    filename := file_metadata.filename
    content_type := file_metadata.content_type
    size := file_metadata.size
    storage_id := file_metadata.storage_id }

/-- A client message body for POST `/chat/thread/{thread_id}/message`:
`message.get("content", "")` and the optional `"files"` list (absent or not a
list ↦ `none`). -/
structure IncomingMessage where
  content : Option String
  files : Option (List FileRef)
deriving DecidableEq, Repr

/-- The delivery invocations issued by chat.py:366-389, in order.  For an
admin sender the code sends to the thread owner, then (the `if recipient_id:`
block) sends again and falls back to the owner's e-mail key when the first
send found no live channel; for any other sender it broadcasts to admins,
twice when the role is exactly `"user"`. -/
def notifyActions (manager : ConnectionManager) (role : String) (thread : ChatThread)
    (notify_payload : Envelope) : List NotifyAction :=
  if role = "admin" then
    let recipient_id := thread.user_id
    [.send_personal_message notify_payload recipient_id] ++
      (if recipient_id ≠ "" then
        let success := manager.deliverable recipient_id
        [.send_personal_message notify_payload recipient_id] ++
          (if success = false ∧ thread.user_email ≠ "" then
            [.send_personal_message notify_payload thread.user_email]
          else [])
      else [])
  else
    [.broadcast_to_admins notify_payload] ++
      (if role = "user" then [.broadcast_to_admins notify_payload] else [])

/-- chat.py:307-342: collect the attachments for the references that resolve,
silently dropping the rest. -/
def collectFiles (chat_files : List ChatFile) (message : IncomingMessage) :
    List FileAttachment :=
  match message.files with
  | none => []
  | some refs =>
    refs.filterMap (fun file_ref => (resolveFileRef chat_files file_ref).map toAttachment)

/-- POST `/chat/thread/{thread_id}/message` (chat.py:273-421).  Returns the
stored message, the persistent state after the append, and the delivery
invocations issued (the relay POST to the separate WebSocket server at the end
of the handler is an external best-effort HTTP call outside this model). -/
def add_message_to_thread (db : DB) (manager : ConnectionManager) (thread_id : String)
    (message : IncomingMessage) (now : Nat) (current_user : User) :
    Except HTTPException (Message × DB × List NotifyAction) :=
  let user_id := current_user.id
  let user_name := current_user.name
  let role := current_user.role
  match db.chat_threads.find? (fun t => t.id == thread_id) with
  | none => .error ⟨404, "Chat thread not found"⟩
  | some thread =>
    if role ≠ "admin" ∧ thread.user_id ≠ user_id then
      .error ⟨403, "Not authorized to access this chat thread"⟩
    else if role = "admin" ∧
        ((db.users.find? (fun u => u.id == thread.user_id)).map User.role = some "admin") then
      .error ⟨400, "Admins cannot send messages to other admins."⟩
    else if role = "user" ∧ thread.user_id ≠ user_id then
      .error ⟨403, "Not authorized to send messages to this thread"⟩
    else
      let files := collectFiles db.chat_files message
      let new_message : Message :=
        { sender_id := user_id
          sender_name := user_name
          sender_role := role
          content := message.content.getD ""
          files := files
          timestamp := now
          is_read := false }
      let messages := thread.messages ++ [new_message]
      let threads' :=
        updateFirst (fun t => t.id == thread_id)
          (fun t => { t with messages := messages, updated_at := now })
          db.chat_threads
      let db' := { db with chat_threads := threads' }
      let notify_payload : Envelope :=
        { type := "new_message", thread_id := thread_id, message := new_message }
      .ok (new_message, db', notifyActions manager role thread notify_payload)

/-- The HTTP status of a failed handler call, `none` on success. -/
def errorStatus {α : Type} : Except HTTPException α → Option Nat
  | .error e => some e.status_code
  | .ok _ => none

/-- The identity of a message for pagination purposes: everything except the
mutable `is_read` flag and the attachment list. -/
def msgKey (m : Message) : Nat × String × String := (m.timestamp, m.sender_id, m.content)

section Lemmas

variable {α : Type}

theorem find?_updateFirst (p : α → Bool) (f : α → α) (l : List α)
    (hpf : ∀ x, p x = true → p (f x) = true) :
    (updateFirst p f l).find? p = (l.find? p).map f := by
  induction l with
  | nil => simp [updateFirst]
  | cons x xs ih =>
    by_cases hx : p x = true
    · simp [updateFirst, hx, List.find?_cons, hpf x hx]
    · have hx' : p x = false := by simpa using hx
      simp [updateFirst, hx', List.find?_cons, ih]

theorem length_filterMap_eq_countP {β : Type} (f : α → Option β) (l : List α) :
    (l.filterMap f).length = l.countP (fun a => (f a).isSome) := by
  induction l with
  | nil => simp
  | cons x xs ih =>
    cases hx : f x <;>
      simp [List.filterMap_cons, List.countP_cons, hx, ih]

theorem mem_applyBeforeFilter {m : Message} (pt : String → Option Nat)
    (before : Option String) (msgs : List Message)
    (h : m ∈ applyBeforeFilter pt before msgs) : m ∈ msgs := by
  rcases before with _ | s
  · simpa [applyBeforeFilter] using h
  · simp only [applyBeforeFilter] at h
    split at h
    · split at h
      · exact List.mem_of_mem_filter h
      · exact h
    · exact h

theorem mem_sortMessages {m : Message} {msgs : List Message}
    (h : m ∈ sortMessages msgs) : m ∈ msgs := by
  unfold sortMessages at h
  exact ((List.perm_insertionSort _ msgs).mem_iff).mp h

theorem mem_pageSelect {m : Message} (limit : Int) (before : Option String)
    (pt : String → Option Nat) (msgs : List Message)
    (h : m ∈ pageSelect limit before pt msgs) : m ∈ msgs := by
  simp only [pageSelect] at h
  split at h
  · split at h
    · exact mem_applyBeforeFilter pt before msgs
        (mem_sortMessages (List.mem_of_mem_drop h))
    · exact mem_applyBeforeFilter pt before msgs (mem_sortMessages h)
  · exact h

theorem markAllRead_read {m : Message} (uid : String) (msgs : List Message)
    (hm : m ∈ markAllRead uid msgs) (hs : m.sender_id ≠ uid) : m.is_read = true := by
  unfold markAllRead at hm
  rcases List.mem_map.mp hm with ⟨x, _, hx⟩
  by_cases hc : x.is_read = false ∧ x.sender_id ≠ uid
  · rw [if_pos hc] at hx
    rw [← hx]
  · rw [if_neg hc] at hx
    subst hx
    rcases not_and_or.mp hc with h1 | h2
    · simpa using h1
    · exact absurd (by simpa using h2) hs

theorem needsUpdate_eq_false (uid : String) (msgs : List Message)
    (h : ∀ m ∈ msgs, m.sender_id ≠ uid → m.is_read = true) :
    needsUpdate uid msgs = false := by
  unfold needsUpdate
  rw [List.any_eq_false]
  intro m hm
  intro hcontra
  rcases Bool.and_eq_true_iff.mp hcontra with ⟨h1, h2⟩
  have hsender : m.sender_id ≠ uid := by simpa using h2
  have := h m hm hsender
  rw [this] at h1
  simp at h1

theorem needsUpdate_pageSelect_markAllRead (uid : String) (limit : Int)
    (before : Option String) (pt : String → Option Nat) (msgs : List Message) :
    needsUpdate uid (pageSelect limit before pt (markAllRead uid msgs)) = false := by
  apply needsUpdate_eq_false
  intro m hm hs
  exact markAllRead_read uid msgs (mem_pageSelect limit before pt _ hm) hs

theorem msgKey_markAllRead (uid : String) (msgs : List Message) :
    (markAllRead uid msgs).map msgKey = msgs.map msgKey := by
  unfold markAllRead
  rw [List.map_map]
  apply List.map_congr_left
  intro m _
  by_cases hc : m.is_read = false ∧ m.sender_id ≠ uid
  · simp [hc, msgKey]
  · simp [hc]

end Lemmas

section SampleData

/-- An admin identity. -/
def adminA : User := ⟨"a1", "fa1", "a@x", "admin", "A", 0⟩

/-- A second admin identity, owner of `threadAdminOwned`. -/
def adminB : User := ⟨"a2", "fa2", "b@x", "admin", "B", 0⟩

/-- A non-admin identity who owns no thread in `dbC1`. -/
def mallory : User := ⟨"u9", "fu9", "m@x", "user", "M", 0⟩

/-- A thread whose owner (`a2`) is an admin. -/
def threadAdminOwned : ChatThread := ⟨"t1", "a2", "b@x", "B", none, [], 0, 0⟩

/-- State for the authorization scenarios. -/
def dbC1 : DB := ⟨[adminA, adminB, mallory], [threadAdminOwned], []⟩

/-- An empty registry. -/
def mgr0 : ConnectionManager := ⟨[], []⟩

/-- An empty message body. -/
def emptyBody : IncomingMessage := ⟨none, none⟩

end SampleData

/-- C1 (amended): with the thread present, a non-admin identity whose id
differs from the thread's `user_id` gets HTTP 403 from both the fetch and the
post handler, before any mutation (an error carries no successor state); an
admin posting to a thread whose owner User has role admin is rejected before
any mutation, but with HTTP 400 (`"Admins cannot send messages to other
admins."`), not 403 as claimed. -/
theorem C1_forbidden_access (db : DB) (manager : ConnectionManager) (thread_id : String)
    (limit : Int) (before : Option String) (pt : String → Option Nat)
    (message : IncomingMessage) (now : Nat) (u : User) (thread : ChatThread)
    (hfind : db.chat_threads.find? (fun t => t.id == thread_id) = some thread) :
    (u.role ≠ "admin" → thread.user_id ≠ u.id →
      errorStatus (get_chat_thread db thread_id limit before pt u) = some 403) ∧
    (u.role ≠ "admin" → thread.user_id ≠ u.id →
      errorStatus (add_message_to_thread db manager thread_id message now u) = some 403) ∧
    (u.role = "admin" →
      (db.users.find? (fun x => x.id == thread.user_id)).map User.role = some "admin" →
      errorStatus (add_message_to_thread db manager thread_id message now u) = some 400) := by
  refine ⟨?_, ?_, ?_⟩
  · intro h1 h2
    simp only [get_chat_thread, hfind]
    rw [if_pos ⟨h1, h2⟩]
    rfl
  · intro h1 h2
    simp only [add_message_to_thread, hfind]
    rw [if_pos ⟨h1, h2⟩]
    rfl
  · intro h1 h2
    simp only [add_message_to_thread, hfind]
    rw [if_neg (fun hc => hc.1 h1), if_pos ⟨h1, h2⟩]
    rfl

/-- C1 witness: the three branches at concrete state `dbC1`. -/
theorem C1_forbidden_access_witness :
    errorStatus (get_chat_thread dbC1 "t1" 30 none (fun _ => none) mallory) = some 403 ∧
    errorStatus (add_message_to_thread dbC1 mgr0 "t1" emptyBody 5 mallory) = some 403 ∧
    errorStatus (add_message_to_thread dbC1 mgr0 "t1" emptyBody 5 adminA) = some 400 :=
  ⟨(C1_forbidden_access dbC1 mgr0 "t1" 30 none (fun _ => none) emptyBody 5 mallory
      threadAdminOwned (by decide)).1 (by decide) (by decide),
   (C1_forbidden_access dbC1 mgr0 "t1" 30 none (fun _ => none) emptyBody 5 mallory
      threadAdminOwned (by decide)).2.1 (by decide) (by decide),
   (C1_forbidden_access dbC1 mgr0 "t1" 30 none (fun _ => none) emptyBody 5 adminA
      threadAdminOwned (by decide)).2.2 (by decide) (by decide)⟩

/-- C1 counterexample: an admin (`a1`) posting to the thread owned by admin
`a2` receives status 400, not the 403 the claim demands. -/
theorem C1_admin_to_admin_cex :
    errorStatus (add_message_to_thread dbC1 mgr0 "t1" emptyBody 5 adminA) = some 400 ∧
    (400 : Nat) ≠ 403 := by decide

/-- Role-overwrite commutes with first-match lookup by `firebase_uid`. -/
theorem find?_updateFirst_role (uid fr : String) (l : List User) :
    (updateFirst (fun x => x.firebase_uid == uid)
        (fun x => { x with role := fr }) l).find? (fun x => x.firebase_uid == uid)
      = (l.find? (fun x => x.firebase_uid == uid)).map (fun x => { x with role := fr }) :=
  find?_updateFirst _ _ _ (fun _ hx => hx)

/-- C5: when a stored User has role `"user"` and the verified credential
asserts role `"admin"`, one identity resolution both updates the stored role
to `"admin"` and returns an identity whose role is `"admin"`. -/
theorem C5_role_sync (db : DB) (decoded_token : DecodedToken) (now : Nat)
    (new_id : String) (u : User)
    (hfind : db.users.find? (fun x => x.firebase_uid == decoded_token.uid) = some u)
    (hstored : u.role = "user") (hclaim : decoded_token.role = some "admin") :
    (get_current_user db decoded_token now new_id).1.role = "admin" ∧
    ∃ u', (get_current_user db decoded_token now new_id).2.users.find?
        (fun x => x.firebase_uid == decoded_token.uid) = some u' ∧ u'.role = "admin" := by
  simp only [get_current_user, hfind, hclaim]
  rw [if_pos (by rw [hstored]; decide)]
  refine ⟨rfl, { u with role := "admin" }, ?_, rfl⟩
  dsimp only
  rw [find?_updateFirst_role, hfind]
  rfl

/-- C5 witness: a concrete user stored as `"user"` promoted by an admin claim. -/
theorem C5_role_sync_witness :
    (get_current_user ⟨[mallory], [], []⟩ ⟨"fu9", none, none, some "admin"⟩ 3 "n1").1.role
      = "admin" ∧
    ∃ u', (get_current_user ⟨[mallory], [], []⟩ ⟨"fu9", none, none, some "admin"⟩
        3 "n1").2.users.find? (fun x => x.firebase_uid == "fu9") = some u' ∧
      u'.role = "admin" :=
  C5_role_sync ⟨[mallory], [], []⟩ ⟨"fu9", none, none, some "admin"⟩ 3 "n1" mallory
    (by decide) (by decide) (by decide)

/-- Inserting a key into a dict model makes it retrievable. -/
theorem dictGet_dictSet (d : List (String × Nat)) (k : String) (v : Nat) :
    dictGet (dictSet d k v) k = some v := by
  induction d with
  | nil => simp [dictSet, dictGet]
  | cons p rest ih =>
    by_cases hp : (p.1 == k) = true
    · simp [dictSet, hp, dictGet]
    · simp only [dictSet, hp]
      rw [if_neg (by simp_all)]
      simpa [dictGet, hp] using ih

/-- Inserting a key into a dict model makes it a member. -/
theorem any_key_dictSet (d : List (String × Nat)) (k : String) (v : Nat) :
    (dictSet d k v).any (fun p => p.1 == k) = true := by
  induction d with
  | nil => simp [dictSet]
  | cons p rest ih =>
    by_cases hp : (p.1 == k) = true
    · simp [dictSet, hp]
    · simp only [dictSet, hp]
      rw [if_neg (by simp_all)]
      simp [hp, ih]

/-- C9 (amended): after `connect(websocket, user_id, is_admin)` the primary
map sends `user_id` to the new channel (so re-registering replaces the old
handle), and `user_id` is a key of the admin map iff `is_admin` is true OR
`user_id` was already a key of the admin map (stale admin entries are never
removed by `connect`, so the claim's plain iff fails). -/
theorem C9_register_amended (manager : ConnectionManager) (websocket : Nat)
    (user_id : String) (is_admin : Bool) :
    dictGet (manager.connect websocket user_id is_admin).active_connections user_id
      = some websocket ∧
    ((manager.connect websocket user_id is_admin).admin_connections.any
        (fun p => p.1 == user_id) = true ↔
      (is_admin = true ∨
        manager.admin_connections.any (fun p => p.1 == user_id) = true)) := by
  constructor
  · simp only [ConnectionManager.connect]
    exact dictGet_dictSet _ _ _
  · simp only [ConnectionManager.connect]
    cases is_admin with
    | false => simp
    | true => simp [any_key_dictSet]

/-- C9 counterexample: a registry where `u1` is already in the admin map;
re-registering `u1` with `is_admin = false` leaves `u1` a key of the admin
map, refuting the claimed "iff is_admin" at this input. -/
theorem C9_register_cex :
    ¬(((ConnectionManager.connect ⟨[("u1", 1)], [("u1", 1)]⟩ 2 "u1" false).admin_connections.any
        (fun p => p.1 == "u1") = true) ↔ (false = true)) := by decide

section SampleDataC2

/-- A message from the admin `a1`, still unread. -/
def msgUnreadOther : Message := ⟨"a1", "A", "admin", "hi", [], 1, false⟩

/-- A later message from the admin `a1`, already read. -/
def msgReadOther : Message := ⟨"a1", "A", "admin", "again", [], 2, true⟩

/-- The thread of user `u1` holding the two messages above. -/
def threadC2 : ChatThread := ⟨"t2", "u1", "u@x", "U", none, [msgUnreadOther, msgReadOther], 0, 0⟩

/-- The owner of `threadC2`. -/
def userC2 : User := ⟨"u1", "fu1", "u@x", "user", "U", 0⟩

/-- State for the read-marking scenarios. -/
def dbC2 : DB := ⟨[userC2], [threadC2], []⟩

end SampleDataC2

/-- C2 (amended): after an authorized fetch, every message in the returned
view sent by someone other than the reader is marked read; and on the
persisted side either no update at all is issued (which happens exactly when
the selected page contains no unread foreign message — so unread messages
outside the page can survive, refuting the original claim), or every unread
foreign message of the whole stored thread is flipped to read. -/
theorem C2_mark_read (db : DB) (thread_id : String) (limit : Int) (before : Option String)
    (pt : String → Option Nat) (u : User) (thread : ChatThread)
    (hfind : db.chat_threads.find? (fun t => t.id == thread_id) = some thread)
    (hauth : u.role = "admin" ∨ thread.user_id = u.id) :
    ∃ view db', get_chat_thread db thread_id limit before pt u = .ok (view, db') ∧
      (∀ m ∈ view.messages, m.sender_id ≠ u.id → m.is_read = true) ∧
      (db' = db ∨ ∀ t', db'.chat_threads.find? (fun t => t.id == thread_id) = some t' →
        ∀ m ∈ t'.messages, m.sender_id ≠ u.id → m.is_read = true) := by
  have hnand : ¬(u.role ≠ "admin" ∧ thread.user_id ≠ u.id) := by
    rcases hauth with h | h
    · exact fun hc => hc.1 h
    · exact fun hc => hc.2 h
  simp only [get_chat_thread, hfind]
  rw [if_neg hnand]
  by_cases hup : needsUpdate u.id (pageSelect limit before pt thread.messages) = true
  · rw [if_pos hup]
    refine ⟨_, _, rfl, ?_, ?_⟩
    · intro m hm hs
      exact markAllRead_read u.id _ hm hs
    · right
      intro t' ht' m hm hs
      dsimp only at ht'
      rw [find?_updateFirst (fun t => t.id == thread_id)
        (fun t => { t with messages := markAllRead u.id t.messages })
        db.chat_threads (fun _ hx => hx), hfind] at ht'
      have ht'' : { thread with messages := markAllRead u.id thread.messages } = t' :=
        Option.some.inj ht'
      rw [← ht''] at hm
      exact markAllRead_read u.id _ hm hs
  · rw [if_neg hup]
    refine ⟨_, _, rfl, ?_, Or.inl rfl⟩
    intro m hm hs
    exact markAllRead_read u.id _ hm hs

/-- C2 counterexample: user `u1` fetches their thread with `limit = 1`; the
page is just the already-read second message, so no update is issued, and the
persisted thread still contains an unread message from another sender — the
fetch succeeded yet the claimed postcondition fails. -/
theorem C2_mark_read_cex :
    (get_chat_thread dbC2 "t2" 1 none (fun _ => none) userC2).toOption.map
      (fun r => (r.2.chat_threads.find? (fun t => t.id == "t2")).map
        (fun t => t.messages.any (fun m => !m.is_read && m.sender_id != "u1")))
      = some (some true) := by decide

/-- C2 witness: the amended theorem applied at the concrete state `dbC2`. -/
theorem C2_mark_read_witness :
    ∃ view db', get_chat_thread dbC2 "t2" 30 none (fun _ => none) userC2 = .ok (view, db') ∧
      (∀ m ∈ view.messages, m.sender_id ≠ userC2.id → m.is_read = true) ∧
      (db' = dbC2 ∨ ∀ t', db'.chat_threads.find? (fun t => t.id == "t2") = some t' →
        ∀ m ∈ t'.messages, m.sender_id ≠ userC2.id → m.is_read = true) :=
  C2_mark_read dbC2 "t2" 30 none (fun _ => none) userC2 threadC2 (by decide)
    (Or.inr (by decide))

/-- C3: fetching a thread is idempotent on the persisted state: if an
authorized fetch yields state `db1`, running the same fetch again on `db1`
raises no error and leaves `db1` unchanged (the second call issues no
update). -/
theorem C3_fetch_idempotent (db : DB) (thread_id : String) (limit : Int)
    (before : Option String) (pt : String → Option Nat) (u : User) (thread : ChatThread)
    (hfind : db.chat_threads.find? (fun t => t.id == thread_id) = some thread)
    (hauth : u.role = "admin" ∨ thread.user_id = u.id) :
    ∃ v1 db1 v2, get_chat_thread db thread_id limit before pt u = .ok (v1, db1) ∧
      get_chat_thread db1 thread_id limit before pt u = .ok (v2, db1) := by
  have hnand : ¬(u.role ≠ "admin" ∧ thread.user_id ≠ u.id) := by
    rcases hauth with h | h
    · exact fun hc => hc.1 h
    · exact fun hc => hc.2 h
  simp only [get_chat_thread, hfind]
  rw [if_neg hnand]
  by_cases hup : needsUpdate u.id (pageSelect limit before pt thread.messages) = true
  · rw [if_pos hup]
    have hfind1 : (updateFirst (fun t => t.id == thread_id)
        (fun t => { t with messages := markAllRead u.id t.messages })
        db.chat_threads).find? (fun t => t.id == thread_id)
        = some { thread with messages := markAllRead u.id thread.messages } := by
      rw [find?_updateFirst (fun t => t.id == thread_id)
        (fun t => { t with messages := markAllRead u.id t.messages })
        db.chat_threads (fun _ hx => hx), hfind]
      rfl
    exact ⟨_, _, _, rfl, by
      simp only [get_chat_thread, hfind1]
      rw [if_neg hnand]
      rw [if_neg (by simp [needsUpdate_pageSelect_markAllRead])]⟩
  · rw [if_neg hup]
    exact ⟨_, db, _, rfl, by
      simp only [get_chat_thread, hfind]
      rw [if_neg hnand, if_neg hup]⟩

/-- C3 witness: the idempotence theorem applied at the concrete state `dbC2`
(whose thread has an unread message, so the first fetch does mutate). -/
theorem C3_fetch_idempotent_witness :
    ∃ v1 db1 v2, get_chat_thread dbC2 "t2" 30 none (fun _ => none) userC2 = .ok (v1, db1) ∧
      get_chat_thread db1 "t2" 30 none (fun _ => none) userC2 = .ok (v2, db1) :=
  C3_fetch_idempotent dbC2 "t2" 30 none (fun _ => none) userC2 threadC2 (by decide)
    (Or.inr (by decide))

/-- A stable sort leaves an already-sorted list unchanged. -/
theorem sortMessages_eq_of_sorted (msgs : List Message)
    (h : List.Pairwise (fun a b => a.timestamp ≤ b.timestamp) msgs) :
    sortMessages msgs = msgs :=
  List.Sorted.insertionSort_eq h

section SampleDataC4

/-- Ten already-read messages at timestamps 1..10 (one per "minute"). -/
def msgsC4 : List Message :=
  (List.range 10).map (fun n => ⟨"u1", "U", "user", "m", [], n + 1, true⟩)

/-- The reader who owns `threadC4`. -/
def userC4 : User := ⟨"u1", "fu4", "u4@x", "user", "U", 0⟩

/-- A thread holding the ten messages above. -/
def threadC4 : ChatThread := ⟨"t4", "u1", "u4@x", "U", none, msgsC4, 0, 0⟩

/-- State for the pagination scenarios. -/
def dbC4 : DB := ⟨[userC4], [threadC4], []⟩

/-- A timestamp parser recognising only the literal `"t8"` as time 8. -/
def parseC4 : String → Option Nat := fun s => if s = "t8" then some 8 else none

end SampleDataC4

/-- C4: on a thread with strictly increasing timestamps, a fetch with a
parsed cutoff and positive `limit` returns exactly the last `limit` messages
of the subset strictly before the cutoff, in ascending order (message
identity taken up to the `is_read` flag the same fetch may flip). -/
theorem C4_pagination (db : DB) (thread_id : String) (limit : Int) (s : String)
    (cutoff : Nat) (pt : String → Option Nat) (u : User) (thread : ChatThread)
    (hfind : db.chat_threads.find? (fun t => t.id == thread_id) = some thread)
    (hauth : u.role = "admin" ∨ thread.user_id = u.id)
    (hsorted : List.Pairwise (fun a b => a.timestamp < b.timestamp) thread.messages)
    (hs : s ≠ "") (hparse : pt s = some cutoff) (hlim : 0 < limit) :
    ∃ view db', get_chat_thread db thread_id limit (some s) pt u = .ok (view, db') ∧
      view.messages.map msgKey =
        ((thread.messages.filter (fun m => m.timestamp < cutoff)).drop
          ((thread.messages.filter (fun m => m.timestamp < cutoff)).length
            - limit.toNat)).map msgKey := by
  have hnand : ¬(u.role ≠ "admin" ∧ thread.user_id ≠ u.id) := by
    rcases hauth with h | h
    · exact fun hc => hc.1 h
    · exact fun hc => hc.2 h
  have hfs : applyBeforeFilter pt (some s) thread.messages
      = thread.messages.filter (fun m => m.timestamp < cutoff) := by
    simp only [applyBeforeFilter, hparse]
    rw [if_pos (by simpa using hs)]
  have hsortfs : sortMessages (thread.messages.filter (fun m => m.timestamp < cutoff))
      = thread.messages.filter (fun m => m.timestamp < cutoff) :=
    sortMessages_eq_of_sorted _ ((hsorted.filter _).imp (fun h => Nat.le_of_lt h))
  have hpage : pageSelect limit (some s) pt thread.messages
      = (thread.messages.filter (fun m => m.timestamp < cutoff)).drop
        ((thread.messages.filter (fun m => m.timestamp < cutoff)).length
          - limit.toNat) := by
    simp only [pageSelect, hfs, hsortfs]
    rw [if_pos (Or.inl (by omega))]
    by_cases hc : 0 < limit ∧ limit < ((thread.messages.filter
        (fun m => m.timestamp < cutoff)).length : Int)
    · rw [if_pos hc]
    · rw [if_neg hc]
      have hlen : ((thread.messages.filter (fun m => m.timestamp < cutoff)).length : Int)
          ≤ limit := by
        rcases not_and_or.mp hc with h | h
        · exact absurd hlim h
        · omega
      have hz : (thread.messages.filter (fun m => m.timestamp < cutoff)).length
          - limit.toNat = 0 := by omega
      rw [hz, List.drop_zero]
  simp only [get_chat_thread, hfind]
  rw [if_neg hnand]
  refine ⟨_, _, rfl, ?_⟩
  dsimp only
  rw [hpage, msgKey_markAllRead]

/-- C4 witness: messages at timestamps 1..10, `limit = 3`, `before = "t8"`
(time 8): the fetch succeeds and returns the messages at timestamps 5, 6, 7. -/
theorem C4_pagination_witness :
    (∃ view db', get_chat_thread dbC4 "t4" 3 (some "t8") parseC4 userC4 = .ok (view, db') ∧
      view.messages.map msgKey =
        ((threadC4.messages.filter (fun m => m.timestamp < 8)).drop
          ((threadC4.messages.filter (fun m => m.timestamp < 8)).length
            - (3 : Int).toNat)).map msgKey) ∧
    ((threadC4.messages.filter (fun m => m.timestamp < 8)).drop
        ((threadC4.messages.filter (fun m => m.timestamp < 8)).length
          - (3 : Int).toNat)).map msgKey
      = [(5, "u1", "m"), (6, "u1", "m"), (7, "u1", "m")] :=
  ⟨C4_pagination dbC4 "t4" 3 "t8" 8 parseC4 userC4 threadC4 (by decide)
      (Or.inr (by decide)) (by decide) (by decide) (by decide) (by decide),
    by decide⟩

/-- C10: with `limit ≤ 0` no truncation happens: the returned view carries
every message of the thread that passes the `before` filter (every message of
the thread when `before` is absent or empty), message identity taken up to
the `is_read` flag. -/
theorem C10_no_truncation (db : DB) (thread_id : String) (limit : Int)
    (before : Option String) (pt : String → Option Nat) (u : User) (thread : ChatThread)
    (hfind : db.chat_threads.find? (fun t => t.id == thread_id) = some thread)
    (hauth : u.role = "admin" ∨ thread.user_id = u.id) (hlim : limit ≤ 0) :
    ∃ view db', get_chat_thread db thread_id limit before pt u = .ok (view, db') ∧
      List.Perm (view.messages.map msgKey)
        ((applyBeforeFilter pt before thread.messages).map msgKey) := by
  have hnand : ¬(u.role ≠ "admin" ∧ thread.user_id ≠ u.id) := by
    rcases hauth with h | h
    · exact fun hc => hc.1 h
    · exact fun hc => hc.2 h
  have hpage : List.Perm (pageSelect limit before pt thread.messages)
      (applyBeforeFilter pt before thread.messages) := by
    simp only [pageSelect]
    by_cases hc : limit ≠ 0 ∨ pyTruthy before = true
    · rw [if_pos hc, if_neg (fun hcc => by omega)]
      exact List.perm_insertionSort _ _
    · rw [if_neg hc]
      rcases not_or.mp hc with ⟨_, hb⟩
      have hb' : pyTruthy before = false := by simpa using hb
      cases before with
      | none => exact List.Perm.refl _
      | some s =>
        have hs : (s != "") = false := by simpa [pyTruthy] using hb'
        simp [applyBeforeFilter, hs]
  simp only [get_chat_thread, hfind]
  rw [if_neg hnand]
  refine ⟨_, _, rfl, ?_⟩
  dsimp only
  rw [msgKey_markAllRead]
  exact hpage.map msgKey

/-- C10 witness: `limit = 0`, no `before`: the view keeps both stored
messages (no truncation to an empty list). -/
theorem C10_no_truncation_witness :
    ∃ view db', get_chat_thread dbC2 "t2" 0 none (fun _ => none) userC2 = .ok (view, db') ∧
      List.Perm (view.messages.map msgKey)
        ((applyBeforeFilter (fun _ => none) none threadC2.messages).map msgKey) :=
  C10_no_truncation dbC2 "t2" 0 none (fun _ => none) userC2 threadC2 (by decide)
    (Or.inr (by decide)) (by decide)

/-- C8 (amended): a `before` string that parses under none of the tolerated
formats is caught, logged and ignored — the fetch behaves exactly as if no
`before` had been given (for any nonzero `limit`, including the default 30):
no 400 is raised and the read-state mutation still takes place. -/
theorem C8_malformed_before_ignored (db : DB) (thread_id : String) (limit : Int)
    (s : String) (pt : String → Option Nat) (u : User)
    (hparse : pt s = none) (hs : s ≠ "") (hlim : limit ≠ 0) :
    get_chat_thread db thread_id limit (some s) pt u
      = get_chat_thread db thread_id limit none pt u := by
  have hpage : ∀ msgs, pageSelect limit (some s) pt msgs = pageSelect limit none pt msgs := by
    intro msgs
    simp only [pageSelect, applyBeforeFilter, hparse]
    rw [if_pos (Or.inl hlim), if_pos (Or.inl hlim)]
    simp
  simp only [get_chat_thread, hpage]

/-- C8 witness: the amended theorem at a concrete state and the malformed
string `"not-a-timestamp"`. -/
theorem C8_malformed_before_ignored_witness :
    get_chat_thread dbC2 "t2" 30 (some "not-a-timestamp") (fun _ => none) userC2
      = get_chat_thread dbC2 "t2" 30 none (fun _ => none) userC2 :=
  C8_malformed_before_ignored dbC2 "t2" 30 "not-a-timestamp" (fun _ => none) userC2
    rfl (by decide) (by decide)

/-- C8 counterexample: with a malformed `before`, the fetch does NOT fail
with a 400 — it succeeds (`errorStatus = none`) and the read-state mutation
does occur (the resulting state differs from the initial one), refuting both
parts of the claim. -/
theorem C8_malformed_before_cex :
    errorStatus (get_chat_thread dbC2 "t2" 30 (some "not-a-timestamp")
      (fun _ => none) userC2) = none ∧
    (get_chat_thread dbC2 "t2" 30 (some "not-a-timestamp") (fun _ => none)
        userC2).toOption.map (fun r => decide (r.2 = dbC2)) = some false := by
  decide

/-- Every delivery invocation issued for a message carries the single
notification payload built for it. -/
theorem payload_notifyActions (manager : ConnectionManager) (role : String)
    (thread : ChatThread) (p : Envelope) :
    ∀ a ∈ notifyActions manager role thread p, a.payload = p := by
  intro a ha
  simp only [notifyActions] at ha
  split at ha
  · rcases List.mem_append.mp ha with h | h
    · rw [List.mem_singleton.mp h]
      rfl
    · split at h
      · rcases List.mem_append.mp h with h2 | h2
        · rw [List.mem_singleton.mp h2]
          rfl
        · split at h2
          · rw [List.mem_singleton.mp h2]
            rfl
          · simp at h2
      · simp at h
  · rcases List.mem_append.mp ha with h | h
    · rw [List.mem_singleton.mp h]
      rfl
    · split at h
      · rw [List.mem_singleton.mp h]
        rfl
      · simp at h

/-- An admin sender's delivery always includes a direct send to the thread
owner. -/
theorem send_mem_notifyActions_admin (manager : ConnectionManager)
    (thread : ChatThread) (p : Envelope) :
    NotifyAction.send_personal_message p thread.user_id
      ∈ notifyActions manager "admin" thread p := by
  simp [notifyActions]

/-- An admin sender's delivery never broadcasts to admins. -/
theorem no_broadcast_notifyActions_admin (manager : ConnectionManager)
    (thread : ChatThread) (p q : Envelope) :
    NotifyAction.broadcast_to_admins q ∉ notifyActions manager "admin" thread p := by
  simp only [notifyActions, if_pos rfl]
  intro h
  rcases List.mem_append.mp h with h1 | h1
  · simp at h1
  · split at h1
    · rcases List.mem_append.mp h1 with h2 | h2
      · simp at h2
      · split at h2
        · simp at h2
        · simp at h2
    · simp at h1

/-- A user sender's delivery broadcasts to admins. -/
theorem broadcast_mem_notifyActions_user (manager : ConnectionManager)
    (thread : ChatThread) (p : Envelope) :
    NotifyAction.broadcast_to_admins p ∈ notifyActions manager "user" thread p := by
  simp [notifyActions]

section SampleDataC6

/-- The customer in the delivery-routing scenarios. -/
def userC6 : User := ⟨"u1", "fu6", "u6@x", "user", "U", 0⟩

/-- The admin in the delivery-routing scenarios. -/
def adminC6 : User := ⟨"a6", "fa6", "a6@x", "admin", "A", 0⟩

/-- The customer's thread. -/
def threadC6 : ChatThread := ⟨"t6", "u1", "u6@x", "U", none, [], 0, 0⟩

/-- State for the delivery-routing scenarios. -/
def dbC6 : DB := ⟨[userC6, adminC6], [threadC6], []⟩

end SampleDataC6

/-- C6: for every successfully appended message, every delivery invocation
carries the envelope `{type: "new_message", thread_id, message}`; an admin
sender triggers a direct `send_personal_message` to the thread owner and
never a `broadcast_to_admins`; a user sender triggers `broadcast_to_admins`. -/
theorem C6_delivery_routing (db : DB) (manager : ConnectionManager) (thread_id : String)
    (message : IncomingMessage) (now : Nat) (u : User) (thread : ChatThread)
    (hfind : db.chat_threads.find? (fun t => t.id == thread_id) = some thread)
    (hauth : u.role = "admin" ∨ thread.user_id = u.id)
    (hnoA2A : ¬(u.role = "admin" ∧
      (db.users.find? (fun x => x.id == thread.user_id)).map User.role = some "admin")) :
    ∃ new_msg db' acts,
      add_message_to_thread db manager thread_id message now u = .ok (new_msg, db', acts) ∧
      (∀ a ∈ acts, a.payload = ⟨"new_message", thread_id, new_msg⟩) ∧
      (u.role = "admin" →
        NotifyAction.send_personal_message ⟨"new_message", thread_id, new_msg⟩
          thread.user_id ∈ acts ∧
        ∀ q, NotifyAction.broadcast_to_admins q ∉ acts) ∧
      (u.role = "user" →
        NotifyAction.broadcast_to_admins ⟨"new_message", thread_id, new_msg⟩ ∈ acts) := by
  have hnand : ¬(u.role ≠ "admin" ∧ thread.user_id ≠ u.id) := by
    rcases hauth with h | h
    · exact fun hc => hc.1 h
    · exact fun hc => hc.2 h
  have huser : ¬(u.role = "user" ∧ thread.user_id ≠ u.id) := by
    rintro ⟨hr, hne⟩
    rcases hauth with h | h
    · rw [h] at hr
      exact absurd hr (by decide)
    · exact hne h
  simp only [add_message_to_thread, hfind]
  rw [if_neg hnand, if_neg hnoA2A, if_neg huser]
  refine ⟨_, _, _, rfl, ?_, ?_, ?_⟩
  · exact payload_notifyActions manager u.role thread _
  · intro hr
    rw [hr]
    exact ⟨send_mem_notifyActions_admin manager thread _,
      fun q => no_broadcast_notifyActions_admin manager thread _ q⟩
  · intro hr
    rw [hr]
    exact broadcast_mem_notifyActions_user manager thread _

/-- C6 witness: both routing cases at a concrete state — the admin `a6`
posting to the customer thread, and the customer `u1` posting to their own
thread. -/
theorem C6_delivery_routing_witness :
    (∃ new_msg db' acts,
      add_message_to_thread dbC6 mgr0 "t6" emptyBody 7 adminC6 = .ok (new_msg, db', acts) ∧
      (∀ a ∈ acts, a.payload = ⟨"new_message", "t6", new_msg⟩) ∧
      (adminC6.role = "admin" →
        NotifyAction.send_personal_message ⟨"new_message", "t6", new_msg⟩
          threadC6.user_id ∈ acts ∧
        ∀ q, NotifyAction.broadcast_to_admins q ∉ acts) ∧
      (adminC6.role = "user" →
        NotifyAction.broadcast_to_admins ⟨"new_message", "t6", new_msg⟩ ∈ acts)) ∧
    (∃ new_msg db' acts,
      add_message_to_thread dbC6 mgr0 "t6" emptyBody 7 userC6 = .ok (new_msg, db', acts) ∧
      (∀ a ∈ acts, a.payload = ⟨"new_message", "t6", new_msg⟩) ∧
      (userC6.role = "admin" →
        NotifyAction.send_personal_message ⟨"new_message", "t6", new_msg⟩
          threadC6.user_id ∈ acts ∧
        ∀ q, NotifyAction.broadcast_to_admins q ∉ acts) ∧
      (userC6.role = "user" →
        NotifyAction.broadcast_to_admins ⟨"new_message", "t6", new_msg⟩ ∈ acts)) :=
  ⟨C6_delivery_routing dbC6 mgr0 "t6" emptyBody 7 adminC6 threadC6 (by decide)
      (Or.inl (by decide)) (by decide),
    C6_delivery_routing dbC6 mgr0 "t6" emptyBody 7 userC6 threadC6 (by decide)
      (Or.inr (by decide)) (by decide)⟩

/-- Appending a batch of messages commutes with first-match lookup by thread
id. -/
theorem find?_updateFirst_msgs (tid : String) (g : ChatThread → List Message)
    (upd : Nat) (l : List ChatThread) :
    (updateFirst (fun t => t.id == tid)
        (fun t => { t with messages := g t, updated_at := upd }) l).find?
        (fun t => t.id == tid)
      = (l.find? (fun t => t.id == tid)).map
          (fun t => { t with messages := g t, updated_at := upd }) :=
  find?_updateFirst _ _ _ (fun _ hx => hx)

section SampleDataC7

/-- A stored chat file. -/
def fileC7 : ChatFile := ⟨"f1", "s1", "a.png", "image/png", 10⟩

/-- State for the attachment-resolution scenarios: customer `u1`, their
thread, one stored file. -/
def dbC7 : DB := ⟨[userC6], [⟨"t7", "u1", "u6@x", "U", none, [], 0, 0⟩], [fileC7]⟩

end SampleDataC7

/-- C7: an authorized append carrying N client file references stores a
message whose attachment list has exactly one entry per reference that
resolves (by id first, else by storage id) — M entries with M ≤ N — and the
append succeeds and persists the message regardless of M (including M = 0). -/
theorem C7_file_resolution (db : DB) (manager : ConnectionManager) (thread_id : String)
    (message : IncomingMessage) (now : Nat) (u : User) (thread : ChatThread)
    (refs : List FileRef)
    (hfind : db.chat_threads.find? (fun t => t.id == thread_id) = some thread)
    (hauth : u.role = "admin" ∨ thread.user_id = u.id)
    (hnoA2A : ¬(u.role = "admin" ∧
      (db.users.find? (fun x => x.id == thread.user_id)).map User.role = some "admin"))
    (hrefs : message.files = some refs) :
    ∃ new_msg db' acts,
      add_message_to_thread db manager thread_id message now u = .ok (new_msg, db', acts) ∧
      new_msg.files.length = refs.countP (fun r => (resolveFileRef db.chat_files r).isSome) ∧
      new_msg.files.length ≤ refs.length ∧
      ∃ t', db'.chat_threads.find? (fun t => t.id == thread_id) = some t' ∧
        t'.messages = thread.messages ++ [new_msg] := by
  have hnand : ¬(u.role ≠ "admin" ∧ thread.user_id ≠ u.id) := by
    rcases hauth with h | h
    · exact fun hc => hc.1 h
    · exact fun hc => hc.2 h
  have huser : ¬(u.role = "user" ∧ thread.user_id ≠ u.id) := by
    rintro ⟨hr, hne⟩
    rcases hauth with h | h
    · rw [h] at hr
      exact absurd hr (by decide)
    · exact hne h
  simp only [add_message_to_thread, hfind]
  rw [if_neg hnand, if_neg hnoA2A, if_neg huser]
  refine ⟨_, _, _, rfl, ?_, ?_, ?_⟩
  · dsimp only
    simp only [collectFiles, hrefs]
    rw [length_filterMap_eq_countP]
    simp [Option.isSome_map']
  · dsimp only
    simp only [collectFiles, hrefs]
    exact List.length_filterMap_le _ _
  · dsimp only
    rw [find?_updateFirst_msgs, hfind]
    exact ⟨_, rfl, rfl⟩

/-- C7 witness: two references of which one resolves (M = 1 ≤ N = 2), and a
separate all-unresolved append (M = 0, N = 1) that still succeeds. -/
theorem C7_file_resolution_witness :
    (∃ new_msg db' acts,
      add_message_to_thread dbC7 mgr0 "t7"
          ⟨some "x", some [⟨some "f1", none⟩, ⟨some "zz", some "nope"⟩]⟩ 9 userC6
        = .ok (new_msg, db', acts) ∧
      new_msg.files.length = ([⟨some "f1", none⟩, ⟨some "zz", some "nope"⟩] :
        List FileRef).countP (fun r => (resolveFileRef dbC7.chat_files r).isSome) ∧
      new_msg.files.length ≤ ([⟨some "f1", none⟩, ⟨some "zz", some "nope"⟩] :
        List FileRef).length ∧
      ∃ t', db'.chat_threads.find? (fun t => t.id == "t7") = some t' ∧
        t'.messages = [] ++ [new_msg]) ∧
    (∃ new_msg db' acts,
      add_message_to_thread dbC7 mgr0 "t7" ⟨some "y", some [⟨some "zz", some "nope"⟩]⟩
          11 userC6
        = .ok (new_msg, db', acts) ∧
      new_msg.files.length = ([⟨some "zz", some "nope"⟩] :
        List FileRef).countP (fun r => (resolveFileRef dbC7.chat_files r).isSome) ∧
      new_msg.files.length ≤ ([⟨some "zz", some "nope"⟩] : List FileRef).length ∧
      ∃ t', db'.chat_threads.find? (fun t => t.id == "t7") = some t' ∧
        t'.messages = [] ++ [new_msg]) :=
  ⟨C7_file_resolution dbC7 mgr0 "t7"
      ⟨some "x", some [⟨some "f1", none⟩, ⟨some "zz", some "nope"⟩]⟩ 9 userC6
      ⟨"t7", "u1", "u6@x", "U", none, [], 0, 0⟩ [⟨some "f1", none⟩, ⟨some "zz", some "nope"⟩]
      (by decide) (Or.inr (by decide)) (by decide) rfl,
    C7_file_resolution dbC7 mgr0 "t7" ⟨some "y", some [⟨some "zz", some "nope"⟩]⟩ 11 userC6
      ⟨"t7", "u1", "u6@x", "U", none, [], 0, 0⟩ [⟨some "zz", some "nope"⟩]
      (by decide) (Or.inr (by decide)) (by decide) rfl⟩

end TailoringChat
